import Mathlib

/-!
# Verification of the snapcast-backend audio pipeline (src/main.py)

Shallow embedding of the core logic of `src/main.py`:

* `extract_emotion_and_text` — the emotion-marker extraction built on the two
  regex operations `re.findall(r'\[([^\]]+)\]', text)` and
  `re.sub(r'\[([^\]]+)\]', '', text)` followed by whitespace collapsing
  (`re.sub(r'\s+', ' ', ...)`) and `str.strip()`.
* the account-rotation state machine (`rotate_account`, `should_rotate_account`,
  `increment_tts_count`, `get_firebase_token`) over the module globals
  `current_account_index`, `tts_request_count`, `current_token`.
* `text_to_speech_v3` — rotation check, token acquisition, the stability
  mapping derived from emotion markers, counter increment, and the
  5-attempt / 15-second retry loop.  Network responses are supplied by
  oracles (`auth_result`, `attempt_results`) so every possible sequence of
  remote outcomes is covered.
* `create_and_mix_audio` — the segment loop: voice lookup, v3 synthesis with
  fallback to `client.text_to_speech.convert` at fixed voice settings, and
  timeline placement via
  `adjusted_start_time = max(start_time_ms, previous_end_time + 500)`.

File layout: definitions first, then supporting lemmas, then the claim
theorems with their witnesses.
-/

/-- Audio payloads are byte sequences; bytes are modelled as naturals. -/
abbrev ByteSeq := List Nat

/-! ## Emotion annotation parsing (`extract_emotion_and_text`, main.py 186-196) -/

/-- The characters matched by Python's `\s` (and stripped by `str.strip()`)
for ASCII text: space, tab, newline, carriage return, vertical tab, form feed. -/
def py_isspace (c : Char) : Bool :=
  c == ' ' || c == '\t' || c == '\n' || c == '\r' ||
    c == Char.ofNat 11 || c == Char.ofNat 12

/-- `re.sub(r'\s+', ' ', s)`: every maximal run of whitespace characters is
replaced by a single space. -/
def collapse_ws : List Char → List Char
  | [] => []
  | [c] => if py_isspace c then [' '] else [c]
  | c :: d :: rest =>
    if py_isspace c then
      if py_isspace d then collapse_ws (d :: rest)
      else ' ' :: collapse_ws (d :: rest)
    else c :: collapse_ws (d :: rest)

/-- `str.strip()`: drop leading and trailing whitespace. -/
def py_strip (l : List Char) : List Char :=
  ((l.dropWhile py_isspace).reverse.dropWhile py_isspace).reverse

/-- `re.findall(r'\[([^\]]+)\]', text)` as a left-to-right scan.  The second
argument is the scanning mode: `none` while outside a bracket pair, and
`some acc` (content accumulated in reverse) after an opening `[` whose match
is still pending.  A pending `[` whose content would be empty (`[]`) or that
never sees a closing `]` fails to match, exactly as the pattern
`\[([^\]]+)\]` does, and scanning resumes after the failed `[`. -/
def re_findall_emotion : List Char → Option (List Char) → List (List Char)
  | [], none => []
  | [], some _ => []
  | c :: rest, none =>
    if c = '[' then re_findall_emotion rest (some [])
    else re_findall_emotion rest none
  | c :: rest, some acc =>
    if c = ']' then
      if acc.isEmpty then re_findall_emotion rest none
      else acc.reverse :: re_findall_emotion rest none
    else re_findall_emotion rest (some (c :: acc))

/-- `re.sub(r'\[([^\]]+)\]', '', text)`: the same scan as
`re_findall_emotion`, emitting the text with every matched bracket pair
deleted and every unmatched character kept. -/
def re_sub_emotion : List Char → Option (List Char) → List Char
  | [], none => []
  | [], some acc => '[' :: acc.reverse
  | c :: rest, none =>
    if c = '[' then re_sub_emotion rest (some [])
    else c :: re_sub_emotion rest none
  | c :: rest, some acc =>
    if c = ']' then
      if acc.isEmpty then '[' :: ']' :: re_sub_emotion rest none
      else re_sub_emotion rest none
    else re_sub_emotion rest (some (c :: acc))

/-- main.py 186-196: extract the emotion tags and produce the cleaned text
(tags removed, whitespace runs collapsed, then stripped). -/
def extract_emotion_and_text (text : String) : List String × String :=
  let cs := text.toList
  let emotions := (re_findall_emotion cs none).map List.asString
  let cleaned_text := (py_strip (collapse_ws (re_sub_emotion cs none))).asString
  (emotions, cleaned_text)

/-! ## Stability mapping (main.py 276-283) -/

/-- The "high-energy" marker set of the stability rule. -/
def high_energy_emotions : List String := ["excited", "dramatic", "nervous"]

/-- The "composed" marker set of the stability rule. -/
def composed_emotions : List String := ["whispers", "serious", "thoughtful"]

/-- main.py 276-283: stability starts at 0.5; when the emotion list is
non-empty (`if emotions:`), any high-energy marker forces 0.0, otherwise any
composed marker forces 1.0. -/
def stability_of (emotions : List String) : ℚ :=
  if emotions.isEmpty then 1/2
  else if emotions.any (fun e => high_energy_emotions.contains e) then 0
  else if emotions.any (fun e => composed_emotions.contains e) then 1
  else 1/2

/-! ## Account rotation and token cache (main.py 159-259) -/

/-- The module globals `current_account_index`, `tts_request_count`,
`current_token` of main.py. -/
structure RotationState where
  current_account_index : Nat
  tts_request_count : Nat
  current_token : Option String
deriving DecidableEq

/-- Initial values of the globals (main.py 43-45). -/
def initial_rotation_state : RotationState := ⟨0, 0, none⟩

/-- main.py 174-176: rotate once the counter reaches 2. -/
def should_rotate_account (s : RotationState) : Bool :=
  s.tts_request_count ≥ 2

/-- main.py 165-172: advance the cursor modulo the pool size, reset the
counter, drop the cached token.  `pool_size` is `len(accounts)`. -/
def rotate_account (pool_size : Nat) (s : RotationState) : RotationState :=
  { current_account_index := (s.current_account_index + 1) % pool_size
    tts_request_count := 0
    current_token := none }

/-- main.py 178-182: bump the per-account request counter. -/
def increment_tts_count (s : RotationState) : RotationState :=
  { s with tts_request_count := s.tts_request_count + 1 }

/-- main.py 198-259: return the cached token when one is present (no network
interaction); otherwise run the Firebase exchange, whose outcome (after its
own internal retries) is supplied by the oracle `auth_result`, caching the
token on success. -/
def get_firebase_token (s : RotationState) (auth_result : Option String) :
    Option String × RotationState :=
  match s.current_token with
  | some t => (some t, s)
  | none =>
    match auth_result with
    | some t => (some t, { s with current_token := some t })
    | none => (none, s)

/-! ## Synthesis retry loop (main.py 311-346) -/

/-- `max_retries = 5` in `text_to_speech_v3`. -/
def tts_max_retries : Nat := 5

/-- `retry_delay = 15` (seconds) in `text_to_speech_v3`. -/
def tts_retry_delay : Nat := 15

/-- The `for attempt in range(max_retries)` loop.  `attempt_results i` is the
outcome of attempt `i`: `some bytes` models a 200 response whose streamed
chunks concatenate to `bytes`; `none` models a non-success status or a
transport error (both are handled identically by the source).  Returns the
final result together with the total seconds slept: the loop sleeps
`retry_delay` after a failed attempt only while `attempt < max_retries - 1`. -/
def tts_retry_from (attempt_results : Nat → Option ByteSeq) :
    Nat → Nat → Option ByteSeq × Nat
  | 0, _ => (none, 0)
  | remaining + 1, attempt =>
    match attempt_results attempt with
    | some b => (some b, 0)
    | none =>
      if attempt < tts_max_retries - 1 then
        let r := tts_retry_from attempt_results remaining (attempt + 1)
        (r.1, tts_retry_delay + r.2)
      else tts_retry_from attempt_results remaining (attempt + 1)

/-- The whole retry loop of `text_to_speech_v3`: `max_retries` iterations
starting at attempt 0. -/
def tts_retry_loop (attempt_results : Nat → Option ByteSeq) : Option ByteSeq × Nat :=
  tts_retry_from attempt_results tts_max_retries 0

/-! ## `text_to_speech_v3` (main.py 261-346) -/

/-- main.py 261-346 as a state transformer over the rotation globals.
Steps, in source order: rotate when `should_rotate_account()`; obtain a token
(returning `None` without touching the counter when that fails); compute the
payload stability via `stability_of`; increment the request counter; run the
retry loop.  Returns (audio result, account index the request was issued
under — `none` when no request was issued, new global state). -/
def text_to_speech_v3 (pool_size : Nat) (auth_result : Option String)
    (attempt_results : Nat → Option ByteSeq) (emotions : List String)
    (s : RotationState) : Option ByteSeq × Option Nat × RotationState :=
  let s1 := if should_rotate_account s then rotate_account pool_size s else s
  match get_firebase_token s1 auth_result with
  | (none, s2) => (none, none, s2)
  | (some _, s2) =>
    let _payload_stability := stability_of emotions
    let s3 := increment_tts_count s2
    ((tts_retry_loop attempt_results).1, some s1.current_account_index, s3)

/-- A run of `n` synthesis calls starting from the initial globals, each
issued with a successfully authenticating account (`tokens i` is the token
the `i`-th authentication would return) and arbitrary per-call attempt
outcomes. -/
def run_tts_calls (pool_size : Nat) (tokens : Nat → String)
    (attempts : Nat → Nat → Option ByteSeq) : Nat → RotationState
  | 0 => initial_rotation_state
  | n + 1 =>
    (text_to_speech_v3 pool_size (some (tokens n)) (attempts n) []
      (run_tts_calls pool_size tokens attempts n)).2.2

/-- The account index under which the `n`-th call (1-indexed) of such a run
is issued. -/
def nth_call_account (pool_size : Nat) (tokens : Nat → String)
    (attempts : Nat → Nat → Option ByteSeq) (n : Nat) : Option Nat :=
  (text_to_speech_v3 pool_size (some (tokens (n - 1))) (attempts (n - 1)) []
    (run_tts_calls pool_size tokens attempts (n - 1))).2.1

/-! ## The orchestrator `create_and_mix_audio` (main.py 348-432) -/

/-- One script segment (main.py reads `type`, `speaker`, `text`,
`start_time`; `start_time` is in seconds). -/
structure Segment where
  type : String
  speaker : String
  text : String
  start_time : Nat
deriving DecidableEq

/-- The remote-world outcomes relevant to one segment: the authentication
outcome, the per-attempt outcomes of the primary synthesis endpoint, and the
fallback `convert` outcome (`none` models the call raising). -/
structure SegmentEnv where
  auth_result : Option String
  attempt_results : Nat → Option ByteSeq
  fallback_result : Option ByteSeq

/-- The `VoiceSettings` passed to the fallback call. -/
structure VoiceSettings where
  stability : ℚ
  similarity_boost : ℚ
  style : ℚ
  use_speaker_boost : Bool
deriving DecidableEq

/-- main.py 401-406: `VoiceSettings(stability=0.5, similarity_boost=0.75,
style=0.0, use_speaker_boost=True)`. -/
def fallback_voice_settings : VoiceSettings := ⟨1/2, 3/4, 0, true⟩

/-- A record of one call to the fallback endpoint
`client.text_to_speech.convert`. -/
structure FallbackCall where
  voice_id : String
  text : String
  settings : VoiceSettings
deriving DecidableEq

/-- main.py 29-33: the speaker-to-voice mapping. -/
def VOICE_MAPPING : List (String × String) :=
  [("진행자", "mgugV8tLa3KQE4mfYTw5"),
   ("남자게스트", "K3qo7ugXmpT87FDhLBbN"),
   ("여자게스트", "KlstlYt9VVf3zgie2Oht")]

/-- Python truthiness of `audio_bytes` in `if not audio_bytes:`:
`None` and `b""` are falsy. -/
def py_truthy_bytes : Option ByteSeq → Bool
  | none => false
  | some b => !b.isEmpty

/-- The v3 synthesis call made for one segment (main.py 393). -/
def segment_v3 (pool_size : Nat) (env : SegmentEnv) (seg : Segment)
    (rot : RotationState) : Option ByteSeq × Option Nat × RotationState :=
  text_to_speech_v3 pool_size env.auth_result env.attempt_results
    (extract_emotion_and_text seg.text).1 rot

/-- The observable outcome of `create_and_mix_audio`: the placed clips as
(actual placement ms, duration ms) pairs in placement order, the fallback
calls made, and the final rotation globals and `previous_end_time`. -/
structure MixResult where
  placed : List (Nat × Nat)
  fallback_calls : List FallbackCall
  rot : RotationState
  previous_end_time : Nat
deriving DecidableEq

/-- main.py 371-426, the segment loop of `create_and_mix_audio`.
Per dialogue segment: parse emotions, look up the voice (skipping the segment
when the speaker is unmapped), synthesize via `text_to_speech_v3`, fall back
to the `convert` call when the result is falsy, and on obtaining audio place
it at `max(start_time_ms, previous_end_time + 500)`, advancing
`previous_end_time` to the placement plus the clip duration.  A failing
fallback raises, which the `except` swallows before placement, so the
segment is skipped and the loop continues.  `audio_duration_ms` models
`len(AudioSegment.from_mp3(...))` for given audio bytes; file I/O and
decoding are assumed not to fail. -/
def create_and_mix_audio (pool_size : Nat) (audio_duration_ms : ByteSeq → Nat)
    (rot : RotationState) (previous_end_time : Nat) :
    List (Segment × SegmentEnv) → MixResult
  | [] => ⟨[], [], rot, previous_end_time⟩
  | (seg, env) :: rest =>
    if seg.type = "dialogue" then
      match VOICE_MAPPING.lookup seg.speaker with
      | none => create_and_mix_audio pool_size audio_duration_ms rot previous_end_time rest
      | some vid =>
        let v3 := segment_v3 pool_size env seg rot
        let audio_bytes := if py_truthy_bytes v3.1 then v3.1 else env.fallback_result
        let fb_calls : List FallbackCall :=
          if py_truthy_bytes v3.1 then []
          else [⟨vid, (extract_emotion_and_text seg.text).2, fallback_voice_settings⟩]
        match audio_bytes with
        | none =>
          let res := create_and_mix_audio pool_size audio_duration_ms v3.2.2
            previous_end_time rest
          ⟨res.placed, fb_calls ++ res.fallback_calls, res.rot, res.previous_end_time⟩
        | some b =>
          let adjusted_start_time := max (seg.start_time * 1000) (previous_end_time + 500)
          let dur := audio_duration_ms b
          let res := create_and_mix_audio pool_size audio_duration_ms v3.2.2
            (adjusted_start_time + dur) rest
          ⟨(adjusted_start_time, dur) :: res.placed, fb_calls ++ res.fallback_calls,
            res.rot, res.previous_end_time⟩
    else create_and_mix_audio pool_size audio_duration_ms rot previous_end_time rest

/-! ## Specification-side definitions (for refinement claims) -/

/-- Scan up to the next `]`, returning the (possibly empty) content before it
and the remainder after it; `none` when no `]` follows. -/
def close_scan : List Char → Option (List Char × List Char)
  | [] => none
  | c :: rest =>
    if c = ']' then some ([], rest)
    else
      match close_scan rest with
      | some (m, after) => some (c :: m, after)
      | none => none

/-- The non-greedy match attempted at an opening bracket, per the spec's
"every substring enclosed in a single bracket pair, matched non-greedily":
the enclosed substring runs to the nearest closing bracket and must be
non-empty. -/
def spec_close_split (l : List Char) : Option (List Char × List Char) :=
  match close_scan l with
  | some (m, after) => if m.isEmpty then none else some (m, after)
  | none => none

/-- Marker extraction as the spec describes it: left-to-right, at each `[`
attempt a non-greedy single-pair match, collect the enclosed substring and
resume after the pair; on failure resume at the next character.  Fuel-indexed
to make the recursion structural; `spec_markers` supplies sufficient fuel. -/
def spec_markers_fuel : Nat → List Char → List (List Char)
  | 0, _ => []
  | _ + 1, [] => []
  | fuel + 1, c :: rest =>
    if c = '[' then
      match spec_close_split rest with
      | some (m, after) => m :: spec_markers_fuel fuel after
      | none => spec_markers_fuel fuel rest
    else spec_markers_fuel fuel rest

/-- The spec's marker sequence for a text. -/
def spec_markers (l : List Char) : List (List Char) :=
  spec_markers_fuel l.length l

/-- Removal of every matched bracket pair, as the spec describes `cleanText`
before whitespace normalization. -/
def spec_remove_fuel : Nat → List Char → List Char
  | 0, l => l
  | _ + 1, [] => []
  | fuel + 1, c :: rest =>
    if c = '[' then
      match spec_close_split rest with
      | some (_, after) => spec_remove_fuel fuel after
      | none => c :: spec_remove_fuel fuel rest
    else c :: spec_remove_fuel fuel rest

/-- The spec's text with markers removed. -/
def spec_remove (l : List Char) : List Char :=
  spec_remove_fuel l.length l

/-- `parse` as specified: the marker sequence together with the marker-free
text, whitespace runs collapsed to one space and the result trimmed. -/
def spec_parse (text : String) : List String × String :=
  ((spec_markers text.toList).map List.asString,
   (py_strip (collapse_ws (spec_remove text.toList))).asString)

/-- The no-overlap chain property of a placement list: each clip starts at
least 500 ms after the previous end, threading the end of each clip. -/
def placed_ok : Nat → List (Nat × Nat) → Prop
  | _, [] => True
  | prev_end, (a, d) :: rest => prev_end + 500 ≤ a ∧ placed_ok (a + d) rest

/-! ## Fixtures used by witnesses -/

/-- A segment environment whose calls all succeed. -/
def demo_env : SegmentEnv := ⟨some "tok", fun _ => some [7], none⟩

/-- A segment environment whose primary synthesis attempts all fail and whose
fallback call raises. -/
def demo_env_fail : SegmentEnv := ⟨some "tok", fun _ => none, none⟩

/-- A mapped dialogue segment planned at 0 s. -/
def demo_seg1 : Segment := ⟨"dialogue", "진행자", "hi", 0⟩

/-- A second mapped dialogue segment planned at 0 s. -/
def demo_seg2 : Segment := ⟨"dialogue", "진행자", "yo", 0⟩

/-- A dialogue segment whose speaker has no entry in `VOICE_MAPPING`. -/
def demo_seg_unmapped : Segment := ⟨"dialogue", "게스트", "hi", 0⟩

/-- A duration oracle: every clip lasts 1000 ms. -/
def demo_dur : ByteSeq → Nat := fun _ => 1000

/-! ## Supporting lemmas: the emotion parser -/

theorem close_scan_length : ∀ (l m after : List Char),
    close_scan l = some (m, after) → after.length < l.length := by
  intro l
  induction l with
  | nil => intro m after h; simp [close_scan] at h
  | cons c rest ih =>
    intro m after h
    by_cases hc : c = ']'
    · subst hc
      simp only [close_scan, if_pos rfl, Option.some.injEq, Prod.mk.injEq] at h
      obtain ⟨-, rfl⟩ := h
      simp
    · simp only [close_scan, if_neg hc] at h
      cases hr : close_scan rest with
      | none => rw [hr] at h; simp at h
      | some p =>
        obtain ⟨m', a'⟩ := p
        rw [hr] at h
        simp only [Option.some.injEq, Prod.mk.injEq] at h
        obtain ⟨-, rfl⟩ := h
        have := ih m' a' hr
        simp only [List.length_cons]
        omega

theorem close_scan_nil_content : ∀ (l after : List Char),
    close_scan l = some ([], after) → l = ']' :: after := by
  intro l after h
  cases l with
  | nil => simp [close_scan] at h
  | cons c rest =>
    by_cases hc : c = ']'
    · subst hc
      simp [close_scan] at h
      simp [h]
    · simp only [close_scan, if_neg hc] at h
      cases hr : close_scan rest with
      | none => rw [hr] at h; simp at h
      | some p =>
        obtain ⟨m', a'⟩ := p
        rw [hr] at h
        simp at h

theorem re_findall_some_eq : ∀ (l acc : List Char),
    re_findall_emotion l (some acc) =
      (match close_scan l with
      | none => []
      | some (m, after) =>
        if acc.isEmpty ∧ m.isEmpty then re_findall_emotion after none
        else (acc.reverse ++ m) :: re_findall_emotion after none) := by
  intro l
  induction l with
  | nil => intro acc; simp [re_findall_emotion, close_scan]
  | cons c rest ih =>
    intro acc
    by_cases hc : c = ']'
    · subst hc
      simp only [re_findall_emotion, if_pos rfl, close_scan]
      by_cases ha : acc.isEmpty
      · have hacc : acc = [] := List.isEmpty_iff.mp ha
        subst hacc
        simp
      · rw [if_neg ha]
        simp [ha]
    · simp only [re_findall_emotion, if_neg hc]
      rw [ih (c :: acc)]
      simp only [close_scan, if_neg hc]
      cases hr : close_scan rest with
      | none => simp
      | some p =>
        obtain ⟨m, after⟩ := p
        simp [List.reverse_cons, List.append_assoc]

theorem re_sub_some_eq : ∀ (l acc : List Char),
    re_sub_emotion l (some acc) =
      (match close_scan l with
      | none => '[' :: acc.reverse ++ l
      | some (m, after) =>
        if acc.isEmpty ∧ m.isEmpty then '[' :: ']' :: re_sub_emotion after none
        else re_sub_emotion after none) := by
  intro l
  induction l with
  | nil => intro acc; simp [re_sub_emotion, close_scan]
  | cons c rest ih =>
    intro acc
    by_cases hc : c = ']'
    · subst hc
      simp only [re_sub_emotion, if_pos rfl, close_scan]
      by_cases ha : acc.isEmpty
      · have hacc : acc = [] := List.isEmpty_iff.mp ha
        subst hacc
        simp
      · rw [if_neg ha]
        simp [ha]
    · simp only [re_sub_emotion, if_neg hc]
      rw [ih (c :: acc)]
      simp only [close_scan, if_neg hc]
      cases hr : close_scan rest with
      | none => simp
      | some p =>
        obtain ⟨m, after⟩ := p
        simp [List.reverse_cons, List.append_assoc]

theorem close_scan_none_cons {c : Char} {rest : List Char}
    (h : close_scan (c :: rest) = none) : c ≠ ']' ∧ close_scan rest = none := by
  by_cases hc : c = ']'
  · subst hc; simp [close_scan] at h
  · refine ⟨hc, ?_⟩
    simp only [close_scan, if_neg hc] at h
    cases hr : close_scan rest with
    | none => rfl
    | some p => obtain ⟨m', a'⟩ := p; rw [hr] at h; simp at h

theorem spec_markers_fuel_no_close : ∀ (fuel : Nat) (l : List Char),
    close_scan l = none → spec_markers_fuel fuel l = [] := by
  intro fuel
  induction fuel with
  | zero => intro l _; rfl
  | succ f ih =>
    intro l h
    cases l with
    | nil => rfl
    | cons c rest =>
      obtain ⟨hc, hrest⟩ := close_scan_none_cons h
      have hs : spec_close_split rest = none := by
        simp [spec_close_split, hrest]
      by_cases hb : c = '['
      · subst hb
        simp only [spec_markers_fuel, if_pos rfl, hs]
        exact ih rest hrest
      · simp only [spec_markers_fuel, if_neg hb]
        exact ih rest hrest

theorem spec_remove_fuel_no_close : ∀ (fuel : Nat) (l : List Char),
    close_scan l = none → spec_remove_fuel fuel l = l := by
  intro fuel
  induction fuel with
  | zero => intro l _; rfl
  | succ f ih =>
    intro l h
    cases l with
    | nil => rfl
    | cons c rest =>
      obtain ⟨hc, hrest⟩ := close_scan_none_cons h
      have hs : spec_close_split rest = none := by
        simp [spec_close_split, hrest]
      by_cases hb : c = '['
      · subst hb
        simp only [spec_remove_fuel, if_pos rfl, hs]
        simp [ih rest hrest]
      · simp only [spec_remove_fuel, if_neg hb]
        rw [ih rest hrest]

theorem re_findall_eq_spec : ∀ (fuel : Nat) (l : List Char), l.length ≤ fuel →
    re_findall_emotion l none = spec_markers_fuel fuel l := by
  intro fuel
  induction fuel using Nat.strong_induction_on with
  | _ fuel ih =>
    intro l hl
    cases l with
    | nil => cases fuel <;> rfl
    | cons c rest =>
      obtain ⟨f, rfl⟩ : ∃ f, fuel = f + 1 := by
        cases fuel with
        | zero => simp at hl
        | succ f => exact ⟨f, rfl⟩
      have hrest : rest.length ≤ f := by
        simpa using hl
      by_cases hb : c = '['
      · subst hb
        simp only [re_findall_emotion, if_pos rfl, spec_markers_fuel]
        rw [re_findall_some_eq]
        cases hr : close_scan rest with
        | none =>
          have hs : spec_close_split rest = none := by simp [spec_close_split, hr]
          rw [hs]
          exact (spec_markers_fuel_no_close f rest hr).symm
        | some p =>
          obtain ⟨m, after⟩ := p
          cases m with
          | nil =>
            have hs : spec_close_split rest = none := by simp [spec_close_split, hr]
            rw [hs]
            have hrform : rest = ']' :: after := close_scan_nil_content rest after hr
            subst hrform
            obtain ⟨f', rfl⟩ : ∃ f', f = f' + 1 := by
              cases f with
              | zero => simp at hrest
              | succ f' => exact ⟨f', rfl⟩
            have hafter : after.length ≤ f' := by simpa using hrest
            simp only [spec_markers_fuel,
              if_neg (by decide : ¬ (']' : Char) = '[')]
            simpa using ih f' (by omega) after hafter
          | cons m0 ms =>
            have hs : spec_close_split rest = some (m0 :: ms, after) := by
              simp [spec_close_split, hr]
            rw [hs]
            have hafter : after.length ≤ f := by
              have := close_scan_length rest (m0 :: ms) after hr
              omega
            simpa using ih f (by omega) after hafter
      · simp only [re_findall_emotion, if_neg hb, spec_markers_fuel, if_neg hb]
        exact ih f (by omega) rest hrest

theorem re_sub_eq_spec : ∀ (fuel : Nat) (l : List Char), l.length ≤ fuel →
    re_sub_emotion l none = spec_remove_fuel fuel l := by
  intro fuel
  induction fuel using Nat.strong_induction_on with
  | _ fuel ih =>
    intro l hl
    cases l with
    | nil => cases fuel <;> rfl
    | cons c rest =>
      obtain ⟨f, rfl⟩ : ∃ f, fuel = f + 1 := by
        cases fuel with
        | zero => simp at hl
        | succ f => exact ⟨f, rfl⟩
      have hrest : rest.length ≤ f := by
        simpa using hl
      by_cases hb : c = '['
      · subst hb
        simp only [re_sub_emotion, if_pos rfl, spec_remove_fuel]
        rw [re_sub_some_eq]
        cases hr : close_scan rest with
        | none =>
          have hs : spec_close_split rest = none := by simp [spec_close_split, hr]
          rw [hs]
          rw [spec_remove_fuel_no_close f rest hr]
          simp
        | some p =>
          obtain ⟨m, after⟩ := p
          cases m with
          | nil =>
            have hs : spec_close_split rest = none := by simp [spec_close_split, hr]
            rw [hs]
            have hrform : rest = ']' :: after := close_scan_nil_content rest after hr
            subst hrform
            obtain ⟨f', rfl⟩ : ∃ f', f = f' + 1 := by
              cases f with
              | zero => simp at hrest
              | succ f' => exact ⟨f', rfl⟩
            have hafter : after.length ≤ f' := by simpa using hrest
            simp only [spec_remove_fuel,
              if_neg (by decide : ¬ (']' : Char) = '[')]
            simpa using ih f' (by omega) after hafter
          | cons m0 ms =>
            have hs : spec_close_split rest = some (m0 :: ms, after) := by
              simp [spec_close_split, hr]
            rw [hs]
            have hafter : after.length ≤ f := by
              have := close_scan_length rest (m0 :: ms) after hr
              omega
            simpa using ih f (by omega) after hafter
      · simp only [re_sub_emotion, if_neg hb, spec_remove_fuel, if_neg hb]
        rw [ih f (by omega) rest hrest]

theorem re_sub_of_no_marker : ∀ l : List Char,
    (re_findall_emotion l none = [] → re_sub_emotion l none = l) ∧
    (∀ acc, re_findall_emotion l (some acc) = [] →
      re_sub_emotion l (some acc) = '[' :: acc.reverse ++ l) := by
  intro l
  induction l with
  | nil =>
    refine ⟨fun _ => rfl, fun acc _ => ?_⟩
    simp [re_sub_emotion]
  | cons c rest ih =>
    constructor
    · intro h
      by_cases hb : c = '['
      · subst hb
        simp only [re_findall_emotion, if_pos rfl] at h
        have := ih.2 [] h
        simp only [re_sub_emotion, if_pos rfl, this]
        simp
      · simp only [re_findall_emotion, if_neg hb] at h
        simp only [re_sub_emotion, if_neg hb, ih.1 h]
    · intro acc h
      by_cases hc : c = ']'
      · subst hc
        simp only [re_findall_emotion, if_pos rfl] at h
        by_cases ha : acc.isEmpty
        · have hacc : acc = [] := List.isEmpty_iff.mp ha
          subst hacc
          rw [if_pos ha] at h
          simp only [re_sub_emotion, if_pos rfl, if_pos ha]
          rw [ih.1 h]
          simp
        · rw [if_neg ha] at h
          simp at h
      · simp only [re_findall_emotion, if_neg hc] at h
        simp only [re_sub_emotion, if_neg hc]
        rw [ih.2 (c :: acc) h]
        simp

/-! ## Claim theorems: parsing and stability -/

/-- C3: for every (possibly empty) emotion-marker list, the stability sent to
the synthesis backend is 0.0 when any marker is high-energy (excited,
dramatic, nervous), else 1.0 when any marker is composed (whispers, serious,
thoughtful), else 0.5 — high-energy takes precedence when both match. -/
theorem c3_stability_mapping (emotions : List String) :
    stability_of emotions =
      if ∃ m ∈ emotions, m ∈ high_energy_emotions then (0 : ℚ)
      else if ∃ m ∈ emotions, m ∈ composed_emotions then 1
      else 1/2 := by
  cases emotions with
  | nil => simp [stability_of]
  | cons e es =>
    simp only [stability_of, List.isEmpty_cons, Bool.false_eq_true, if_false,
      List.any_eq_true, List.elem_iff]

/-- C4: for every input string, `extract_emotion_and_text` returns exactly
the markers described by the spec (every substring enclosed in a single
bracket pair, matched non-greedily, left-to-right, duplicates preserved) and
the clean text (markers removed, whitespace runs collapsed, trimmed); in
particular it maps `"[excited] hi [whispers] there"` to markers
`["excited", "whispers"]` and clean text `"hi there"`. -/
theorem c4_parser_refinement :
    (∀ s : String, extract_emotion_and_text s = spec_parse s) ∧
    extract_emotion_and_text "[excited] hi [whispers] there" =
      (["excited", "whispers"], "hi there") := by
  constructor
  · intro s
    simp only [extract_emotion_and_text, spec_parse, spec_markers, spec_remove]
    rw [re_findall_eq_spec s.toList.length s.toList (le_refl _),
      re_sub_eq_spec s.toList.length s.toList (le_refl _)]
  · decide

/-- C5 counterexample: the claim says a marker-free input comes back as the
original text merely trimmed, but on `"a  b"` (which contains no bracketed
marker) the code also collapses the interior whitespace run: it returns
`"a b"`, while the original text trimmed is `"a  b"`. -/
theorem c5_counterexample :
    re_findall_emotion ("a  b".toList) none = [] ∧
    extract_emotion_and_text "a  b" = ([], "a b") ∧
    (py_strip ("a  b".toList)).asString = "a  b" ∧
    ("a b" : String) ≠ "a  b" :=
  ⟨by decide, by decide, by decide, by decide⟩

/-- C5 (amended): `extract_emotion_and_text` is pure and total, and on any
input containing no bracketed marker it returns an empty marker sequence and
the original text with every whitespace run collapsed to a single space and
the result trimmed (not the original text merely trimmed). -/
theorem c5_no_marker_parse (s : String)
    (h : re_findall_emotion s.toList none = []) :
    extract_emotion_and_text s = ([], (py_strip (collapse_ws s.toList)).asString) := by
  have hsub : re_sub_emotion s.toList none = s.toList :=
    (re_sub_of_no_marker s.toList).1 h
  have hdef : extract_emotion_and_text s =
      ((re_findall_emotion s.toList none).map List.asString,
       (py_strip (collapse_ws (re_sub_emotion s.toList none))).asString) := rfl
  rw [hdef, h, hsub]
  rfl

/-- Witness for C5 (amended) on the spec's own example input. -/
theorem c5_witness :
    re_findall_emotion ("no markers here".toList) none = [] ∧
    extract_emotion_and_text "no markers here" =
      ([], (py_strip (collapse_ws ("no markers here".toList))).asString) :=
  ⟨by decide, c5_no_marker_parse "no markers here" (by decide)⟩

/-! ## Supporting lemmas: rotation state machine -/

theorem tts_v3_step_fields (ps : Nat) (t : String) (att : Nat → Option ByteSeq)
    (ems : List String) (s : RotationState) :
    (text_to_speech_v3 ps (some t) att ems s).2.2.current_account_index =
      (if 2 ≤ s.tts_request_count then (s.current_account_index + 1) % ps
       else s.current_account_index) ∧
    (text_to_speech_v3 ps (some t) att ems s).2.2.tts_request_count =
      (if 2 ≤ s.tts_request_count then 1 else s.tts_request_count + 1) ∧
    (text_to_speech_v3 ps (some t) att ems s).2.1 =
      some (if 2 ≤ s.tts_request_count then (s.current_account_index + 1) % ps
            else s.current_account_index) := by
  by_cases h : 2 ≤ s.tts_request_count
  · simp [text_to_speech_v3, should_rotate_account, rotate_account,
      increment_tts_count, get_firebase_token, h]
  · simp only [text_to_speech_v3, should_rotate_account, increment_tts_count,
      get_firebase_token]
    rw [if_neg (by simpa using h)]
    cases s.current_token <;> simp [h]

theorem run_tts_calls_invariant (ps : Nat) (tokens : Nat → String)
    (attempts : Nat → Nat → Option ByteSeq) :
    ∀ n : Nat, 1 ≤ n →
      (run_tts_calls ps tokens attempts n).current_account_index = ((n - 1) / 2) % ps ∧
      (run_tts_calls ps tokens attempts n).tts_request_count =
        (if n % 2 = 1 then 1 else 2) := by
  intro n
  induction n with
  | zero => intro h; omega
  | succ m ih =>
    intro _
    have hrun : run_tts_calls ps tokens attempts (m + 1) =
        (text_to_speech_v3 ps (some (tokens m)) (attempts m) []
          (run_tts_calls ps tokens attempts m)).2.2 := rfl
    have hstep := tts_v3_step_fields ps (tokens m) (attempts m) []
      (run_tts_calls ps tokens attempts m)
    by_cases hm : m = 0
    · subst hm
      rw [hrun, hstep.1, hstep.2.1]
      have h0 : run_tts_calls ps tokens attempts 0 = initial_rotation_state := rfl
      rw [h0]
      simp [initial_rotation_state]
    · have hm1 : 1 ≤ m := by omega
      obtain ⟨hidx, hcnt⟩ := ih hm1
      by_cases hpar : m % 2 = 1
      · have hc1 : (run_tts_calls ps tokens attempts m).tts_request_count = 1 := by
          rw [hcnt]; simp [hpar]
        have hcond : ¬ 2 ≤ (run_tts_calls ps tokens attempts m).tts_request_count := by
          rw [hc1]; omega
        constructor
        · rw [hrun, hstep.1, if_neg hcond, hidx]
          have hdiv : (m - 1) / 2 = (m + 1 - 1) / 2 := by omega
          rw [hdiv]
        · rw [hrun, hstep.2.1, if_neg hcond, hc1]
          have hp2 : ¬ (m + 1) % 2 = 1 := by omega
          rw [if_neg hp2]
      · have hc2 : (run_tts_calls ps tokens attempts m).tts_request_count = 2 := by
          rw [hcnt]; simp [hpar]
        have hcond : 2 ≤ (run_tts_calls ps tokens attempts m).tts_request_count := by
          rw [hc2]
        constructor
        · rw [hrun, hstep.1, if_pos hcond, hidx, Nat.mod_add_mod]
          have hdiv : (m - 1) / 2 + 1 = (m + 1 - 1) / 2 := by omega
          rw [hdiv]
        · rw [hrun, hstep.2.1, if_pos hcond]
          have hp2 : (m + 1) % 2 = 1 := by omega
          rw [if_pos hp2]

/-! ## Claim theorems: rotation -/

/-- C2: over a non-empty pool of size `ps`, the `n`-th synthesis request
(1-indexed) is issued under the account at index
`⌊(n-1)/2⌋ mod ps` — rotation occurs exactly every 2 requests,
deterministically, regardless of each request's outcome (`attempts` is
arbitrary: the counter is incremented before the retry loop runs). -/
theorem c2_rotation_schedule (ps : Nat) (tokens : Nat → String)
    (attempts : Nat → Nat → Option ByteSeq) (n : Nat) (_hps : 0 < ps)
    (hn : 1 ≤ n) :
    nth_call_account ps tokens attempts n = some (((n - 1) / 2) % ps) := by
  have hstep := tts_v3_step_fields ps (tokens (n - 1)) (attempts (n - 1)) []
    (run_tts_calls ps tokens attempts (n - 1))
  unfold nth_call_account
  rw [hstep.2.2]
  by_cases h1 : n = 1
  · subst h1
    have h0 : run_tts_calls ps tokens attempts 0 = initial_rotation_state := rfl
    rw [h0]
    simp [initial_rotation_state]
  · have hm1 : 1 ≤ n - 1 := by omega
    obtain ⟨hidx, hcnt⟩ := run_tts_calls_invariant ps tokens attempts (n - 1) hm1
    by_cases hpar : (n - 1) % 2 = 1
    · have hcond : ¬ 2 ≤ (run_tts_calls ps tokens attempts (n - 1)).tts_request_count := by
        rw [hcnt]; simp [hpar]
      rw [if_neg hcond, hidx]
      have hdiv : (n - 1 - 1) / 2 = (n - 1) / 2 := by omega
      rw [hdiv]
    · have hcond : 2 ≤ (run_tts_calls ps tokens attempts (n - 1)).tts_request_count := by
        rw [hcnt]; simp [hpar]
      rw [if_pos hcond, hidx, Nat.mod_add_mod]
      have hdiv : (n - 1 - 1) / 2 + 1 = (n - 1) / 2 := by omega
      rw [hdiv]

/-- Witness for C2: with pool size 3, the 7th request is issued under
account `⌊6/2⌋ mod 3 = 0`. -/
theorem c2_witness :
    nth_call_account 3 (fun _ => "tok") (fun _ _ => some [0]) 7 =
      some (((7 - 1) / 2) % 3) :=
  c2_rotation_schedule 3 (fun _ => "tok") (fun _ _ => some [0]) 7
    (by decide) (by decide)

/-- C6 counterexample: with a pool of size 3, starting at cursor 0 and
counter 0, after 7 successful synthesis calls the cursor is 0, not 1 as the
claim states (the 7th call performs the third rotation 2 → 0 at its start
and is then issued under cursor 0). -/
theorem c6_counterexample :
    ¬ (run_tts_calls 3 (fun _ => "tok") (fun _ _ => some [0])
        7).current_account_index = 1 := by
  decide

/-- C6 (amended): with a pool of size 3, starting at cursor 0 and counter 0,
after 7 successful synthesis calls the cursor equals 0 (the calls run under
cursors 0,0,1,1,2,2,0, the rotation happening at the start of calls 3, 5
and 7). -/
theorem c6_cursor_after_seven_calls (tokens : Nat → String)
    (attempts : Nat → Nat → Option ByteSeq) :
    (run_tts_calls 3 tokens attempts 7).current_account_index = 0 := by
  have h := (run_tts_calls_invariant 3 tokens attempts 7 (by omega)).1
  rw [h]

/-- C7: when a token is cached, `get_firebase_token` returns it unchanged,
touching no state and making no network call (the result is independent of
the network oracle); and every rotation moves the cursor to
`(cursor+1) mod pool_size`, resets the request counter to 0 and drops the
cached token, so the next `get_firebase_token` is decided by a fresh
authentication. -/
theorem c7_token_cache_and_rotation :
    (∀ (s : RotationState) (t : String) (auth_result : Option String),
      s.current_token = some t → get_firebase_token s auth_result = (some t, s)) ∧
    (∀ (pool_size : Nat) (s : RotationState),
      rotate_account pool_size s =
        ⟨(s.current_account_index + 1) % pool_size, 0, none⟩) ∧
    (∀ (pool_size : Nat) (s : RotationState) (auth_result : Option String),
      (get_firebase_token (rotate_account pool_size s) auth_result).1 = auth_result) := by
  refine ⟨?_, ?_, ?_⟩
  · intro s t auth h
    simp [get_firebase_token, h]
  · intro ps s
    rfl
  · intro ps s auth
    cases auth <;> simp [get_firebase_token, rotate_account]

/-- Witness for C7: a concrete cached token is returned unchanged even when
a different fresh token would be available. -/
theorem c7_witness :
    get_firebase_token ⟨0, 0, some "cached"⟩ (some "fresh") =
      (some "cached", ⟨0, 0, some "cached"⟩) :=
  c7_token_cache_and_rotation.1 ⟨0, 0, some "cached"⟩ "cached" (some "fresh") rfl

/-! ## Supporting lemmas: retry loop and placement -/

theorem tts_retry_from_fst_none (f : Nat → Option ByteSeq) :
    ∀ (rem att : Nat), (tts_retry_from f rem att).1 = none ↔
      ∀ i, att ≤ i → i < att + rem → f i = none := by
  intro rem
  induction rem with
  | zero =>
    intro att
    constructor
    · intro _ i h1 h2
      omega
    · intro _
      rfl
  | succ r ih =>
    intro att
    cases hf : f att with
    | some b =>
      simp only [tts_retry_from, hf]
      constructor
      · intro h
        simp at h
      · intro h
        have := h att (le_refl _) (by omega)
        rw [hf] at this
        simp at this
    | none =>
      have hfst : (tts_retry_from f (r + 1) att).1 =
          (tts_retry_from f r (att + 1)).1 := by
        simp only [tts_retry_from, hf]
        split <;> rfl
      rw [hfst, ih (att + 1)]
      constructor
      · intro h i h1 h2
        by_cases hi : i = att
        · subst hi
          exact hf
        · exact h i (by omega) (by omega)
      · intro h i h1 h2
        exact h i (by omega) (by omega)

theorem tts_retry_loop_all_fail (f : Nat → Option ByteSeq)
    (h : ∀ i, i < tts_max_retries → f i = none) :
    tts_retry_loop f = (none, (tts_max_retries - 1) * tts_retry_delay) := by
  have h0 := h 0 (by decide)
  have h1 := h 1 (by decide)
  have h2 := h 2 (by decide)
  have h3 := h 3 (by decide)
  have h4 := h 4 (by decide)
  norm_num [tts_retry_loop, tts_retry_from, tts_max_retries, tts_retry_delay,
    h0, h1, h2, h3, h4]

theorem placed_ok_create (ps : Nat) (dur : ByteSeq → Nat) :
    ∀ (segs : List (Segment × SegmentEnv)) (rot : RotationState) (pe : Nat),
      placed_ok pe (create_and_mix_audio ps dur rot pe segs).placed := by
  intro segs
  induction segs with
  | nil =>
    intro rot pe
    trivial
  | cons se rest ih =>
    intro rot pe
    obtain ⟨seg, env⟩ := se
    by_cases ht : seg.type = "dialogue"
    · cases hl : VOICE_MAPPING.lookup seg.speaker with
      | none =>
        simp only [create_and_mix_audio, if_pos ht, hl]
        exact ih rot pe
      | some vid =>
        simp only [create_and_mix_audio, if_pos ht, hl]
        cases ha : (if py_truthy_bytes (segment_v3 ps env seg rot).1
            then (segment_v3 ps env seg rot).1 else env.fallback_result) with
        | none =>
          simp only [ha]
          exact ih _ pe
        | some b =>
          simp only [ha]
          exact ⟨Nat.le_max_right _ _, ih _ _⟩
    · simp only [create_and_mix_audio, if_neg ht]
      exact ih rot pe

theorem placed_ok_pairwise :
    ∀ (l : List (Nat × Nat)) (pe n a d b e : Nat), placed_ok pe l →
      l.get? n = some (a, d) → l.get? (n + 1) = some (b, e) → a + d + 500 ≤ b := by
  intro l
  induction l with
  | nil =>
    intro pe n a d b e _ h1 _
    simp at h1
  | cons x rest ih =>
    intro pe n a d b e h h1 h2
    obtain ⟨x1, x2⟩ := x
    obtain ⟨hle, hrest⟩ := h
    cases n with
    | zero =>
      simp at h1
      obtain ⟨rfl, rfl⟩ := h1
      cases rest with
      | nil => simp at h2
      | cons y ys =>
        obtain ⟨y1, y2⟩ := y
        simp at h2
        obtain ⟨rfl, rfl⟩ := h2
        exact hrest.1
    | succ m =>
      simp only [List.get?_cons_succ] at h1 h2
      exact ih (x1 + x2) m a d b e hrest h1 h2

theorem placed_ok_all :
    ∀ (l : List (Nat × Nat)) (pe : Nat), placed_ok pe l →
      ∀ p ∈ l, pe + 500 ≤ p.1 := by
  intro l
  induction l with
  | nil =>
    intro pe _ p hp
    simp at hp
  | cons x rest ih =>
    intro pe h p hp
    obtain ⟨x1, x2⟩ := x
    obtain ⟨hle, hrest⟩ := h
    rcases List.mem_cons.mp hp with rfl | hp'
    · exact hle
    · have := ih (x1 + x2) hrest p hp'
      omega

theorem create_head_placement (ps : Nat) (dur : ByteSeq → Nat) :
    ∀ (segs : List (Segment × SegmentEnv)) (rot : RotationState) (pe a d : Nat),
      (create_and_mix_audio ps dur rot pe segs).placed.head? = some (a, d) →
      ∃ se ∈ segs, a = max (se.1.start_time * 1000) (pe + 500) := by
  intro segs
  induction segs with
  | nil =>
    intro rot pe a d h
    simp [create_and_mix_audio] at h
  | cons se rest ih =>
    intro rot pe a d h
    obtain ⟨seg, env⟩ := se
    by_cases ht : seg.type = "dialogue"
    · cases hl : VOICE_MAPPING.lookup seg.speaker with
      | none =>
        simp only [create_and_mix_audio, if_pos ht, hl] at h
        obtain ⟨se', hmem, heq⟩ := ih rot pe a d h
        exact ⟨se', List.mem_cons_of_mem _ hmem, heq⟩
      | some vid =>
        simp only [create_and_mix_audio, if_pos ht, hl] at h
        cases ha : (if py_truthy_bytes (segment_v3 ps env seg rot).1
            then (segment_v3 ps env seg rot).1 else env.fallback_result) with
        | none =>
          simp only [ha] at h
          obtain ⟨se', hmem, heq⟩ := ih _ pe a d h
          exact ⟨se', List.mem_cons_of_mem _ hmem, heq⟩
        | some b =>
          simp only [ha, List.head?_cons, Option.some.injEq, Prod.mk.injEq] at h
          exact ⟨(seg, env), List.mem_cons_self _ _, h.1.symm⟩
    · simp only [create_and_mix_audio, if_neg ht] at h
      obtain ⟨se', hmem, heq⟩ := ih rot pe a d h
      exact ⟨se', List.mem_cons_of_mem _ hmem, heq⟩

/-! ## Claim theorems: compositor and error handling -/

/-- C1: every clip placed by the compositor is placed at
`max(plannedStartMs, previousClipEndMs + 500)` with `previousClipEndMs` then
advanced to placement + duration; consequently successive placements satisfy
`actual[n] ≥ actual[n-1] + duration[n-1] + 500`, even when a planned start
lies before the previous clip's end. -/
theorem c1_no_overlap_invariant :
    (∀ (ps : Nat) (dur : ByteSeq → Nat) (rot : RotationState) (pe : Nat)
        (seg : Segment) (env : SegmentEnv) (rest : List (Segment × SegmentEnv))
        (vid : String) (b : ByteSeq),
      seg.type = "dialogue" →
      VOICE_MAPPING.lookup seg.speaker = some vid →
      (if py_truthy_bytes (segment_v3 ps env seg rot).1
        then (segment_v3 ps env seg rot).1 else env.fallback_result) = some b →
      (create_and_mix_audio ps dur rot pe ((seg, env) :: rest)).placed =
        (max (seg.start_time * 1000) (pe + 500), dur b) ::
          (create_and_mix_audio ps dur (segment_v3 ps env seg rot).2.2
            (max (seg.start_time * 1000) (pe + 500) + dur b) rest).placed) ∧
    (∀ (ps : Nat) (dur : ByteSeq → Nat) (rot : RotationState) (pe : Nat)
        (segs : List (Segment × SegmentEnv)) (n a d b e : Nat),
      (create_and_mix_audio ps dur rot pe segs).placed.get? n = some (a, d) →
      (create_and_mix_audio ps dur rot pe segs).placed.get? (n + 1) = some (b, e) →
      a + d + 500 ≤ b) := by
  constructor
  · intro ps dur rot pe seg env rest vid b ht hl ha
    simp only [create_and_mix_audio, if_pos ht, hl, ha]
  · intro ps dur rot pe segs n a d b e h1 h2
    exact placed_ok_pairwise _ pe n a d b e (placed_ok_create ps dur segs rot pe) h1 h2

/-- Witness for C1 on two concrete clips: planned starts 0 and 0, durations
1000 ms, placements 500 and 2000 with 500 + 1000 + 500 ≤ 2000. -/
theorem c1_witness :
    (create_and_mix_audio 1 demo_dur initial_rotation_state 0
        [(demo_seg1, demo_env), (demo_seg2, demo_env)]).placed.get? 0 =
      some (500, 1000) ∧
    (create_and_mix_audio 1 demo_dur initial_rotation_state 0
        [(demo_seg1, demo_env), (demo_seg2, demo_env)]).placed.get? 1 =
      some (2000, 1000) ∧
    500 + 1000 + 500 ≤ 2000 :=
  ⟨by decide, by decide,
    c1_no_overlap_invariant.2 1 demo_dur initial_rotation_state 0
      [(demo_seg1, demo_env), (demo_seg2, demo_env)] 0 500 1000 2000 1000
      (by decide) (by decide)⟩

/-- C8: the primary synthesis path fails only after all `max_retries = 5`
attempts fail (with the fixed 15-second delay between consecutive attempts,
4 × 15 s in total on full failure); on such a failure the orchestrator makes
exactly one fallback call with the fixed settings
`stability 0.5, similarity 0.75, style 0.0, speaker-boost on` and no retry of
its own; and when the fallback also fails the segment contributes no clip,
`previous_end_time` is left unchanged, and processing continues with the
remaining segments. -/
theorem c8_retry_and_fallback :
    (∀ f : Nat → Option ByteSeq,
      ((tts_retry_loop f).1 = none ↔ ∀ i, i < tts_max_retries → f i = none)) ∧
    (∀ f : Nat → Option ByteSeq, (∀ i, i < tts_max_retries → f i = none) →
      tts_retry_loop f = (none, (tts_max_retries - 1) * tts_retry_delay)) ∧
    (∀ (ps : Nat) (dur : ByteSeq → Nat) (rot : RotationState) (pe : Nat)
        (seg : Segment) (env : SegmentEnv) (rest : List (Segment × SegmentEnv))
        (vid : String),
      seg.type = "dialogue" →
      VOICE_MAPPING.lookup seg.speaker = some vid →
      py_truthy_bytes (segment_v3 ps env seg rot).1 = false →
      env.fallback_result = none →
      create_and_mix_audio ps dur rot pe ((seg, env) :: rest) =
        ⟨(create_and_mix_audio ps dur (segment_v3 ps env seg rot).2.2 pe rest).placed,
         ⟨vid, (extract_emotion_and_text seg.text).2, fallback_voice_settings⟩ ::
           (create_and_mix_audio ps dur (segment_v3 ps env seg rot).2.2 pe
             rest).fallback_calls,
         (create_and_mix_audio ps dur (segment_v3 ps env seg rot).2.2 pe rest).rot,
         (create_and_mix_audio ps dur (segment_v3 ps env seg rot).2.2 pe
           rest).previous_end_time⟩) ∧
    (∀ (ps : Nat) (dur : ByteSeq → Nat) (rot : RotationState) (pe : Nat)
        (seg : Segment) (env : SegmentEnv) (rest : List (Segment × SegmentEnv))
        (vid : String) (b : ByteSeq),
      seg.type = "dialogue" →
      VOICE_MAPPING.lookup seg.speaker = some vid →
      py_truthy_bytes (segment_v3 ps env seg rot).1 = false →
      env.fallback_result = some b →
      (create_and_mix_audio ps dur rot pe ((seg, env) :: rest)).fallback_calls =
        ⟨vid, (extract_emotion_and_text seg.text).2, fallback_voice_settings⟩ ::
          (create_and_mix_audio ps dur (segment_v3 ps env seg rot).2.2
            (max (seg.start_time * 1000) (pe + 500) + dur b) rest).fallback_calls) := by
  refine ⟨?_, ?_, ?_, ?_⟩
  · intro f
    have h := tts_retry_from_fst_none f tts_max_retries 0
    simpa [tts_retry_loop] using h
  · intro f h
    exact tts_retry_loop_all_fail f h
  · intro ps dur rot pe seg env rest vid ht hl hfalse hfb
    simp only [create_and_mix_audio, if_pos ht, hl, hfalse, Bool.false_eq_true,
      if_false, hfb]
    simp
  · intro ps dur rot pe seg env rest vid b ht hl hfalse hfb
    simp only [create_and_mix_audio, if_pos ht, hl, hfalse, Bool.false_eq_true,
      if_false, hfb]
    simp

/-- Witness for C8: with every primary attempt failing and the fallback
raising, the retry loop fails after its 5 attempts having slept 60 s, and a
concrete segment is skipped after exactly one fallback call while the loop
continues. -/
theorem c8_witness :
    py_truthy_bytes (segment_v3 1 demo_env_fail demo_seg1 initial_rotation_state).1
      = false ∧
    tts_retry_loop (fun _ => none) = (none, (tts_max_retries - 1) * tts_retry_delay) ∧
    create_and_mix_audio 1 demo_dur initial_rotation_state 0
        [(demo_seg1, demo_env_fail)] =
      ⟨(create_and_mix_audio 1 demo_dur
          (segment_v3 1 demo_env_fail demo_seg1 initial_rotation_state).2.2 0 []).placed,
       ⟨"mgugV8tLa3KQE4mfYTw5", (extract_emotion_and_text demo_seg1.text).2,
          fallback_voice_settings⟩ ::
         (create_and_mix_audio 1 demo_dur
           (segment_v3 1 demo_env_fail demo_seg1 initial_rotation_state).2.2 0
           []).fallback_calls,
       (create_and_mix_audio 1 demo_dur
         (segment_v3 1 demo_env_fail demo_seg1 initial_rotation_state).2.2 0 []).rot,
       (create_and_mix_audio 1 demo_dur
         (segment_v3 1 demo_env_fail demo_seg1 initial_rotation_state).2.2 0
         []).previous_end_time⟩ :=
  ⟨by decide,
   c8_retry_and_fallback.2.1 (fun _ => none) (fun _ _ => rfl),
   c8_retry_and_fallback.2.2.1 1 demo_dur initial_rotation_state 0 demo_seg1
     demo_env_fail [] "mgugV8tLa3KQE4mfYTw5" rfl (by decide) (by decide) rfl⟩

/-- C9: a dialogue segment whose speaker has no entry in the voice mapping
contributes zero clips, leaves the rotation state, the placed-clip list and
`previous_end_time` unchanged, and processing continues with the remaining
segments. -/
theorem c9_unmapped_speaker_skipped (ps : Nat) (dur : ByteSeq → Nat)
    (rot : RotationState) (pe : Nat) (seg : Segment) (env : SegmentEnv)
    (rest : List (Segment × SegmentEnv))
    (ht : seg.type = "dialogue")
    (hl : VOICE_MAPPING.lookup seg.speaker = none) :
    create_and_mix_audio ps dur rot pe ((seg, env) :: rest) =
      create_and_mix_audio ps dur rot pe rest := by
  simp only [create_and_mix_audio, if_pos ht, hl]

/-- Witness for C9: the speaker `"게스트"` is unmapped, so its segment is
dropped without affecting the rest of the run. -/
theorem c9_witness :
    VOICE_MAPPING.lookup demo_seg_unmapped.speaker = none ∧
    create_and_mix_audio 1 demo_dur initial_rotation_state 0
        [(demo_seg_unmapped, demo_env)] =
      create_and_mix_audio 1 demo_dur initial_rotation_state 0 [] :=
  ⟨by decide,
   c9_unmapped_speaker_skipped 1 demo_dur initial_rotation_state 0
     demo_seg_unmapped demo_env [] rfl (by decide)⟩

/-- C10: starting from `previous_end_time = 0`, the first clip placed by the
run is placed at `max(plannedStartMs, 500)` for its segment's planned start,
and no clip is ever placed at an offset below 500 ms, even when a planned
start time is 0 s, because the 500 ms minimum gap is applied
unconditionally. -/
theorem c10_first_clip_floor :
    (∀ (ps : Nat) (dur : ByteSeq → Nat) (rot : RotationState)
        (segs : List (Segment × SegmentEnv)) (a d : Nat),
      (create_and_mix_audio ps dur rot 0 segs).placed.head? = some (a, d) →
      ∃ se ∈ segs, a = max (se.1.start_time * 1000) 500) ∧
    (∀ (ps : Nat) (dur : ByteSeq → Nat) (rot : RotationState)
        (segs : List (Segment × SegmentEnv)) (p : Nat × Nat),
      p ∈ (create_and_mix_audio ps dur rot 0 segs).placed → 500 ≤ p.1) := by
  constructor
  · intro ps dur rot segs a d h
    have := create_head_placement ps dur segs rot 0 a d h
    simpa using this
  · intro ps dur rot segs p hp
    have := placed_ok_all _ 0 (placed_ok_create ps dur segs rot 0) p hp
    omega

/-- Witness for C10: a single clip planned at 0 s lands at
`max(0 * 1000, 500) = 500`. -/
theorem c10_witness :
    (create_and_mix_audio 1 demo_dur initial_rotation_state 0
        [(demo_seg1, demo_env)]).placed.head? = some (500, 1000) ∧
    ∃ se ∈ [(demo_seg1, demo_env)], 500 = max (se.1.start_time * 1000) 500 :=
  ⟨by decide,
   c10_first_clip_floor.1 1 demo_dur initial_rotation_state
     [(demo_seg1, demo_env)] 500 1000 (by decide)⟩
